import Mathlib

/-!
Shallow embedding of the `trackball` crate (camera frame, delta transforms,
plane, boundary clamping, and the orbit gesture) over an idealized real
scalar field, together with theorems settling the frozen claims.

The Rust sources embedded here are `src/frame.rs`, `src/delta.rs`,
`src/plane.rs`, `src/scope.rs`, `src/clamp.rs`, `src/bound.rs`,
`src/orbit.rs` and `src/image.rs`.  The scalar type `N: RealField` is
embedded as `ℝ`; quaternions are Mathlib's `Quaternion ℝ` (Hamilton
convention, matching nalgebra).
-/

open scoped Classical

noncomputable section

namespace Trackball

/-- Quaternions over the idealized real scalars (nalgebra `Quaternion<N>`). -/
abbrev Quat := Quaternion ℝ

/-- 3-vector over the idealized real scalars (nalgebra `Vector3<N>`/`Point3<N>`,
both carried by the same coordinate triple). -/
@[ext]
structure V3 where
  x : ℝ
  y : ℝ
  z : ℝ

namespace V3

instance : Zero V3 := ⟨⟨0, 0, 0⟩⟩

instance : Add V3 := ⟨fun a b => ⟨a.x + b.x, a.y + b.y, a.z + b.z⟩⟩

instance : Sub V3 := ⟨fun a b => ⟨a.x - b.x, a.y - b.y, a.z - b.z⟩⟩

instance : Neg V3 := ⟨fun a => ⟨-a.x, -a.y, -a.z⟩⟩

instance : SMul ℝ V3 := ⟨fun r a => ⟨r * a.x, r * a.y, r * a.z⟩⟩

@[simp] theorem zero_x : (0 : V3).x = 0 := rfl

@[simp] theorem zero_y : (0 : V3).y = 0 := rfl

@[simp] theorem zero_z : (0 : V3).z = 0 := rfl

@[simp] theorem add_x (a b : V3) : (a + b).x = a.x + b.x := rfl

@[simp] theorem add_y (a b : V3) : (a + b).y = a.y + b.y := rfl

@[simp] theorem add_z (a b : V3) : (a + b).z = a.z + b.z := rfl

@[simp] theorem sub_x (a b : V3) : (a - b).x = a.x - b.x := rfl

@[simp] theorem sub_y (a b : V3) : (a - b).y = a.y - b.y := rfl

@[simp] theorem sub_z (a b : V3) : (a - b).z = a.z - b.z := rfl

@[simp] theorem neg_x (a : V3) : (-a).x = -a.x := rfl

@[simp] theorem neg_y (a : V3) : (-a).y = -a.y := rfl

@[simp] theorem neg_z (a : V3) : (-a).z = -a.z := rfl

@[simp] theorem smul_x (r : ℝ) (a : V3) : (r • a).x = r * a.x := rfl

@[simp] theorem smul_y (r : ℝ) (a : V3) : (r • a).y = r * a.y := rfl

@[simp] theorem smul_z (r : ℝ) (a : V3) : (r • a).z = r * a.z := rfl

/-- Dot product (nalgebra `Vector3::dot`). -/
def dot (a b : V3) : ℝ := a.x * b.x + a.y * b.y + a.z * b.z

/-- Cross product (nalgebra `Vector3::cross`). -/
def cross (a b : V3) : V3 :=
  ⟨a.y * b.z - a.z * b.y, a.z * b.x - a.x * b.z, a.x * b.y - a.y * b.x⟩

/-- Squared Euclidean norm (nalgebra `norm_squared`). -/
def normSq (a : V3) : ℝ := a.x * a.x + a.y * a.y + a.z * a.z

/-- Euclidean norm (nalgebra `Vector3::norm`). -/
def norm (a : V3) : ℝ := Real.sqrt a.normSq

/-- Normalization `v / ‖v‖` (nalgebra `Vector3::normalize`). -/
def normalize (a : V3) : V3 := ⟨a.x / a.norm, a.y / a.norm, a.z / a.norm⟩

/-- Componentwise scaling (nalgebra `Vector3::scale`). -/
def scale (a : V3) (r : ℝ) : V3 := r • a

end V3

/-- Unit x-axis (nalgebra `Vector3::x_axis`). -/
def xAxis3 : V3 := ⟨1, 0, 0⟩

/-- Unit y-axis (nalgebra `Vector3::y_axis`). -/
def yAxis3 : V3 := ⟨0, 1, 0⟩

/-- Unit z-axis (nalgebra `Vector3::z_axis`). -/
def zAxis3 : V3 := ⟨0, 0, 1⟩

/-- A 3-vector as a pure quaternion. -/
def V3.toQuat (v : V3) : Quat := ⟨0, v.x, v.y, v.z⟩

/-- The vector part of a quaternion. -/
def Quat.vecPart (q : Quat) : V3 := ⟨q.imI, q.imJ, q.imK⟩

/-- Rotation action of a quaternion on a vector, `q v q*` (nalgebra
`UnitQuaternion::transform_vector`, where the inverse of a unit quaternion
is its conjugate). -/
def Quat.rotate (q : Quat) (v : V3) : V3 := Quat.vecPart (q * v.toQuat * star q)

/-- The unit-quaternion invariant maintained by nalgebra's `UnitQuaternion`. -/
def Quat.unitNorm (q : Quat) : Prop := Quaternion.normSq q = 1

/-- Quaternion from a rotation axis and an angle,
`(cos(θ/2), sin(θ/2)·axis)` (nalgebra `UnitQuaternion::from_axis_angle`). -/
def fromAxisAngle (axis : V3) (θ : ℝ) : Quat :=
  ⟨Real.cos (θ / 2), Real.sin (θ / 2) * axis.x, Real.sin (θ / 2) * axis.y,
    Real.sin (θ / 2) * axis.z⟩

@[simp] theorem toQuat_re (v : V3) : v.toQuat.re = 0 := rfl

@[simp] theorem toQuat_imI (v : V3) : v.toQuat.imI = v.x := rfl

@[simp] theorem toQuat_imJ (v : V3) : v.toQuat.imJ = v.y := rfl

@[simp] theorem toQuat_imK (v : V3) : v.toQuat.imK = v.z := rfl

@[simp] theorem vecPart_x (q : Quat) : q.vecPart.x = q.imI := rfl

@[simp] theorem vecPart_y (q : Quat) : q.vecPart.y = q.imJ := rfl

@[simp] theorem vecPart_z (q : Quat) : q.vecPart.z = q.imK := rfl

theorem rotate_one (v : V3) : Quat.rotate 1 v = v := by
  simp [Quat.rotate, Quat.vecPart]

theorem star_toQuat (v : V3) : star v.toQuat = -v.toQuat := by
  ext <;> simp [V3.toQuat]

theorem conj_re_zero (q : Quat) (v : V3) : (q * v.toQuat * star q).re = 0 := by
  have hpure : star (q * v.toQuat * star q) = -(q * v.toQuat * star q) := by
    simp [star_mul, star_toQuat, mul_assoc]
  have h : (q * v.toQuat * star q).re = -(q * v.toQuat * star q).re := by
    conv_lhs => rw [← Quaternion.star_re (q * v.toQuat * star q)]
    rw [hpure, Quaternion.neg_re]
  linarith

theorem rotate_toQuat (q : Quat) (v : V3) :
    (q.rotate v).toQuat = q * v.toQuat * star q := by
  have h0 := conj_re_zero q v
  ext
  · exact h0.symm
  · rfl
  · rfl
  · rfl

theorem rotate_rotate (p q : Quat) (v : V3) :
    Quat.rotate p (Quat.rotate q v) = Quat.rotate (p * q) v := by
  have h : p * (Quat.rotate q v).toQuat * star p = p * q * v.toQuat * star (p * q) := by
    rw [rotate_toQuat, star_mul]
    simp [mul_assoc]
  show Quat.vecPart (p * (Quat.rotate q v).toQuat * star p) = _
  rw [h]
  rfl

theorem rotate_smul (q : Quat) (r : ℝ) (v : V3) :
    Quat.rotate q (r • v) = r • Quat.rotate q v := by
  have : (r • v).toQuat = (r : Quat) * v.toQuat := by
    ext <;> simp [V3.toQuat, Quaternion.coe_mul_eq_smul]
  simp only [Quat.rotate, this]
  have hc : q * ((r : Quat) * v.toQuat) * star q = (r : Quat) * (q * v.toQuat * star q) := by
    rw [← mul_assoc, Quaternion.mul_coe_eq_smul, Quaternion.coe_mul_eq_smul]
    simp [smul_mul_assoc]
  rw [hc]
  ext <;> simp [Quat.vecPart, Quaternion.coe_mul_eq_smul]

theorem rotate_add (q : Quat) (a b : V3) :
    Quat.rotate q (a + b) = Quat.rotate q a + Quat.rotate q b := by
  have : (a + b).toQuat = a.toQuat + b.toQuat := by
    ext <;> simp [V3.toQuat]
  simp only [Quat.rotate, this, mul_add, add_mul]
  ext <;> simp [Quat.vecPart]

theorem rotate_sub (q : Quat) (a b : V3) :
    Quat.rotate q (a - b) = Quat.rotate q a - Quat.rotate q b := by
  have : (a - b).toQuat = a.toQuat - b.toQuat := by
    ext <;> simp [V3.toQuat]
  simp only [Quat.rotate, this, mul_sub, sub_mul]
  ext <;> simp [Quat.vecPart]

theorem rotate_zero (q : Quat) : Quat.rotate q 0 = 0 := by
  have : (0 : V3).toQuat = 0 := by
    ext <;> simp [V3.toQuat]
  simp only [Quat.rotate, this, mul_zero, zero_mul]
  ext <;> simp [Quat.vecPart]

theorem star_rotate_rotate {q : Quat} (h : q.unitNorm) (v : V3) :
    Quat.rotate (star q) (Quat.rotate q v) = v := by
  rw [rotate_rotate, Quaternion.star_mul_self, h]
  have : ((1 : ℝ) : Quat) = 1 := by norm_num
  rw [this, rotate_one]

theorem rotate_star_rotate {q : Quat} (h : q.unitNorm) (v : V3) :
    Quat.rotate q (Quat.rotate (star q) v) = v := by
  rw [rotate_rotate, Quaternion.self_mul_star, h]
  have : ((1 : ℝ) : Quat) = 1 := by norm_num
  rw [this, rotate_one]

/-- Two-argument arctangent, embedding the float `atan2` used by
`Bound::up` over the idealized reals. -/
def atan2 (y x : ℝ) : ℝ :=
  if 0 < x then Real.arctan (y / x)
  else if x < 0 then
    (if 0 ≤ y then Real.arctan (y / x) + Real.pi else Real.arctan (y / x) - Real.pi)
  else if 0 < y then Real.pi / 2 else if y < 0 then -(Real.pi / 2) else 0

/-- Plane `a*x+b*y+c*z+d=0` with unit normal `[a, b, c]` and signed bias `d`
(`src/plane.rs`, `struct Plane`). -/
structure Plane where
  normal : V3
  bias : ℝ

namespace Plane

/-- `Plane::new`: plane from unit normal and signed distance from the origin,
storing the negated distance as bias. -/
def new (normal : V3) (distance : ℝ) : Plane := ⟨normal, -distance⟩

/-- `Plane::with_point`: plane from unit normal with point in plane. -/
def withPoint (normal : V3) (point : V3) : Plane :=
  new normal (normal.dot point)

/-- `Plane::distance`: signed orthogonal distance from the origin. -/
def distance (p : Plane) : ℝ := -p.bias

/-- `Plane::distance_from`: signed orthogonal distance from a point. -/
def distanceFrom (p : Plane) (point : V3) : ℝ :=
  p.distance - p.normal.dot point

/-- `Plane::project_vector`: projects a vector onto the plane. -/
def projectVector (p : Plane) (vector : V3) : V3 :=
  vector - (p.normal.dot vector + p.bias) • p.normal

/-- `Plane::project_point`: projects a point onto the plane. -/
def projectPoint (p : Plane) (point : V3) : V3 := p.projectVector point

/-- nalgebra `Vector3::angle`: unsigned angle between two vectors. -/
def vangle (a b : V3) : ℝ :=
  if a.norm * b.norm = 0 then 0
  else Real.arccos (max (-1) (min 1 (a.dot b / (a.norm * b.norm))))

/-- `Plane::angle_between`: signed angle from `a` to `b`, both in the plane,
signed by the orientation of `a × b` against the plane normal. -/
def angleBetween (p : Plane) (a b : V3) : ℝ :=
  let angle := vangle a b
  let axis := a.cross b
  if p.normal.dot axis < 0 then -angle else angle

end Plane

/-- Direct isometry, rotation followed by translation
(nalgebra `Isometry3<N>`). -/
structure Iso where
  rotation : Quat
  translation : V3

namespace Iso

/-- Identity isometry (nalgebra `Isometry3::default`). -/
def id : Iso := ⟨1, 0⟩

/-- Action on a point: rotate, then translate. -/
def apply (i : Iso) (p : V3) : V3 := i.rotation.rotate p + i.translation

/-- nalgebra `Isometry3::inverse`: inverse rotation (conjugate of the unit
quaternion) and correspondingly inverted translation. -/
def inverse (i : Iso) : Iso :=
  ⟨star i.rotation, -(Quat.rotate (star i.rotation) i.translation)⟩

end Iso

/-- Frame wrt camera eye and target (`src/frame.rs`, `struct Frame`):
target position `pos` in world space, eye rotation `rot` from camera to
world space around target, and target distance `zat` from eye. -/
structure Frame where
  pos : V3
  rot : Quat
  zat : ℝ

namespace Frame

/-- `Frame::eye`: eye position in world space. -/
def eye (f : Frame) : V3 := f.pos + f.zat • f.rot.rotate zAxis3

/-- `Frame::set_target`: sets target position in world space; the eye
position is computed first and the distance recomputed from it. -/
def setTarget (f : Frame) (target : V3) : Frame :=
  let e := f.eye
  ⟨target, f.rot, (target - e).norm⟩

/-- `Frame::distance`: distance between eye and target. -/
def distance (f : Frame) : ℝ := f.zat

/-- `Frame::set_distance`: sets distance between eye and target. -/
def setDistance (f : Frame) (zat : ℝ) : Frame := ⟨f.pos, f.rot, zat⟩

/-- `Frame::scale`: scales distance between eye and target by ratio. -/
def scaleBy (f : Frame) (rat : ℝ) : Frame := ⟨f.pos, f.rot, f.zat * rat⟩

/-- `Frame::local_slide`: slides camera eye and target by vector in camera
space. -/
def localSlide (f : Frame) (vec : V3) : Frame :=
  ⟨f.pos + f.rot.rotate vec, f.rot, f.zat⟩

/-- `Frame::slide`: slides camera eye and target by vector in world space. -/
def slide (f : Frame) (vec : V3) : Frame := ⟨f.pos + vec, f.rot, f.zat⟩

/-- `Frame::local_scale_around`: scales distance between eye and point in
camera space by ratio, sliding first by `pos - pos * rat`. -/
def localScaleAround (f : Frame) (rat : ℝ) (pos : V3) : Frame :=
  (f.localSlide (pos - rat • pos)).scaleBy rat

/-- `Frame::local_orbit`: orbits eye by rotation in camera space around
target. -/
def localOrbit (f : Frame) (rot : Quat) : Frame := ⟨f.pos, f.rot * rot, f.zat⟩

/-- `Frame::local_orbit_around`: orbits eye by rotation in camera space
around point in camera space. -/
def localOrbitAround (f : Frame) (rot : Quat) (pos : V3) : Frame :=
  (f.localSlide (pos - rot.rotate pos)).localOrbit rot

/-- `Frame::orbit`: orbits eye by rotation in world space around target. -/
def orbit (f : Frame) (rot : Quat) : Frame := ⟨f.pos, rot * f.rot, f.zat⟩

/-- `Frame::orbit_around`: orbits eye by rotation in world space around
point in world space. -/
def orbitAround (f : Frame) (rot : Quat) (pos : V3) : Frame :=
  let p := pos - f.pos
  (f.slide (p - rot.rotate p)).orbit rot

/-- `Frame::local_pitch_axis`: positive x-axis in camera space. -/
def localPitchAxis (_f : Frame) : V3 := xAxis3

/-- `Frame::local_yaw_axis`: positive y-axis in camera space. -/
def localYawAxis (_f : Frame) : V3 := yAxis3

/-- `Frame::local_roll_axis`: positive z-axis in camera space. -/
def localRollAxis (_f : Frame) : V3 := zAxis3

/-- `Frame::pitch_axis`: positive x-axis in world space. -/
def pitchAxis (f : Frame) : V3 := f.rot.rotate f.localPitchAxis

/-- `Frame::yaw_axis`: positive y-axis in world space. -/
def yawAxis (f : Frame) : V3 := f.rot.rotate f.localYawAxis

/-- `Frame::roll_axis`: positive z-axis in world space. -/
def rollAxis (f : Frame) : V3 := f.rot.rotate f.localRollAxis

/-- `Frame::look_around`: orbits target around eye by pitch and yaw
preserving roll attitude (first person view). -/
def lookAround (f : Frame) (pitch yaw : ℝ) (yawAxis_ : V3) : Frame :=
  let pitchRot := fromAxisAngle f.pitchAxis pitch
  let yawRot := fromAxisAngle yawAxis_ yaw
  f.orbitAround (yawRot * pitchRot) f.eye

/-- `Frame::view`: view transformation from camera to world space, from
eye position and eye rotation. -/
def view (f : Frame) : Iso := ⟨f.rot, f.eye⟩

/-- `Frame::inverse_view`: inverse view transformation from world to camera
space, derived directly instead of inverting `view()`. -/
def inverseView (f : Frame) : Iso :=
  let rot := star f.rot
  let e := rot.rotate f.pos + f.zat • zAxis3
  ⟨rot, -e⟩

end Frame

/-- Delta transform from initial to final frame (`src/delta.rs`,
`enum Delta`).  The `track` variant is matched by `Clamp::compute` in
`src/clamp.rs` but its declaration is absent from the `delta.rs` in this
snapshot; it is modelled from the spec (see `Delta.transform`). -/
inductive Delta where
  | frame
  | first (pitch yaw : ℝ) (yawAxis : V3)
  | orbit (rot : Quat) (pos : V3)
  | track (vec : V3)
  | slide (vec : V3)
  | scale (rat : ℝ) (pos : V3)

namespace Delta

/-- `Delta::transform`: transforms from initial to final frame.  The
`track` arm is modelled from the spec: the `Track` variant is missing from
`delta.rs` and is described as "a target-slide special case" sliding by a
vector in camera space, like `Slide`. -/
def transform (d : Delta) (f : Frame) : Frame :=
  match d with
  | .frame => f
  | .first pitch yaw yawAxis => f.lookAround pitch yaw yawAxis
  | .orbit rot pos => f.localOrbitAround rot pos
  | .track vec => f.localSlide vec
  | .slide vec => f.localSlide vec
  | .scale rat pos => f.localScaleAround rat pos

/-- `Delta::inverse`: negate angles/vectors, conjugate the rotation,
reflect the scale ratio about one.  The `track` arm is modelled from the
spec, negating its vector like `Slide`. -/
def inverse (d : Delta) : Delta :=
  match d with
  | .frame => .frame
  | .first pitch yaw yawAxis => .first (-pitch) (-yaw) yawAxis
  | .orbit rot pos => .orbit (star rot) pos
  | .track vec => .track (-vec)
  | .slide vec => .slide (-vec)
  | .scale rat pos => .scale (1 + 1 - rat) pos

/-- Non-degeneracy of a delta: rotation axes are unit vectors and orbit
rotations are unit quaternions, the invariants nalgebra's `Unit` wrappers
maintain for the corresponding Rust fields. -/
def wf (d : Delta) : Prop :=
  match d with
  | .first _ _ yawAxis => yawAxis.normSq = 1
  | .orbit rot _ => rot.unitNorm
  | _ => True

end Delta

/-- Scope defining the enclosing viewing frustum (`src/scope.rs`,
`struct Scope`): clip plane distances `zcp`, object inspection mode `oim`
and orthographic projection mode `opm`.  The field-of-view component is
not embedded as no embedded operation reads it. -/
structure Scope where
  zcp : ℝ × ℝ
  oim : Bool
  opm : Bool

namespace Scope

/-- `Scope::default`: clip planes `(1e-1, 1e+3)` measured from eye. -/
def default : Scope := ⟨(1 / 10, 1000), false, false⟩

/-- `Scope::clip_planes`: clip plane distances from eye; in object
inspection mode they are measured from the target at distance `zat`. -/
def clipPlanes (s : Scope) (zat : ℝ) : ℝ × ℝ :=
  if s.oim then (zat - s.zcp.1, zat + s.zcp.2) else s.zcp

/-- `Scope::scale`: object inspection mode. -/
def scaleMode (s : Scope) : Bool := s.oim

end Scope

/-- The square root of `AbsDiffEq::default_epsilon()` appearing in
`Clamp::compute`; the machine epsilon of the float scalar vanishes over
the idealized reals. -/
def defaultEpsilonSqrt : ℝ := 0

/-- nalgebra `UnitQuaternion::rotation_between(a, b).unwrap_or_default()`:
the rotation taking direction `a` to direction `b`, the identity when a
vector is zero or the directions are parallel, and falling back to the
identity (via `unwrap_or_default`) when they are antiparallel. -/
def rotationBetween (a b : V3) : Quat :=
  if a.norm = 0 ∨ b.norm = 0 then 1
  else
    let na := a.normalize
    let nb := b.normalize
    let c := na.cross nb
    if c.norm > 0 then fromAxisAngle c.normalize (Real.arccos (na.dot nb))
    else 1

/-- Clamp wrt abstract boundary conditions of frame and scope
(`src/clamp.rs`, `trait Clamp`): the three boundary probes together with
the loop budget, whose default method body returns `100`. -/
structure Clamp where
  loops : ℕ := 100
  target : Frame → Option Plane
  eye : Frame → Option Plane
  up : Frame → Option Plane

/-- The revalidation loop shared by the `Clamp::compute` branches: run
`step` on the state; on a bound result, stop once the loop counter reaches
the budget (`remaining = budget - loops`), else increment and continue; on
an unbound result, stop. -/
def clampLoop {σ : Type} (step : σ → σ × Bool) : ℕ → ℕ → σ → σ × ℕ
  | remaining, l, s =>
    let sb := step s
    if sb.2 then
      match remaining with
      | 0 => (sb.1, l)
      | r + 1 => clampLoop step r (l + 1) sb.1
    else (sb.1, l)

namespace Clamp

/-- The loop body of the `Delta::First` arm of `Clamp::compute`: the
hoisted prefix values (`eye`, `distance`, `pitch_axis`, `old_target`) are
recomputed from the unchanged initial frame. -/
def firstStep (c : Clamp) (frame : Frame) (yawAxis_ : V3) (minDelta : Delta) :
    Delta × Bool :=
  let eyePos := frame.eye
  let dist := frame.distance
  let pitchAxis_ := frame.pitchAxis
  let oldTarget := frame.pos - eyePos
  let f := minDelta.transform frame
  match c.target f with
  | some plane =>
    let center := plane.projectPoint eyePos
    let height := dist - (center - eyePos).norm
    let radius := Real.sqrt (height * (dist * (1 + 1) - height))
    let newTarget := (plane.projectPoint f.pos - center).normalize.scale radius
    let newTarget := center + newTarget
    let newTarget := newTarget - eyePos
    let pitchPlane := Plane.withPoint pitchAxis_ eyePos
    let oldPitchTarget := pitchPlane.projectVector oldTarget
    let newPitchTarget := pitchPlane.projectVector newTarget
    let pitch := pitchPlane.angleBetween oldPitchTarget newPitchTarget
    let pitchRot := fromAxisAngle pitchAxis_ pitch
    let oldTarget := pitchRot.rotate oldTarget
    let yawPlane := Plane.withPoint yawAxis_ eyePos
    let oldYawTarget := yawPlane.projectVector oldTarget
    let newYawTarget := yawPlane.projectVector newTarget
    let yaw := yawPlane.angleBetween oldYawTarget newYawTarget
    -- The gliding delta is computed but discarded (`FIXME` in the
    -- source): `min_delta` is set to the identity instead.
    let _minDelta := Delta.first pitch yaw yawAxis_
    (Delta.frame, true)
  | none => (minDelta, false)

/-- The loop body of the `Delta::Track` arm of `Clamp::compute`. -/
def trackStep (c : Clamp) (frame : Frame) (minDelta : Delta) : Delta × Bool :=
  let oldTarget := frame.pos
  let oldRotInverse := star frame.view.rotation
  let f := minDelta.transform frame
  let r1 := match c.target f with
    | some plane =>
      let newTarget := plane.projectPoint f.pos
      let vec := oldRotInverse.rotate (newTarget - oldTarget)
      (Delta.track vec, true)
    | none => (minDelta, false)
  let f2 := r1.1.transform frame
  match c.up f2 with
  | some _ =>
    -- Gliding for the up condition is not implemented (`TODO`).
    (Delta.frame, true)
  | none => r1

/-- The loop body of the `Delta::Orbit` arm of `Clamp::compute`. -/
def orbitStep (c : Clamp) (frame : Frame) (pos : V3) (minDelta : Delta) :
    Delta × Bool :=
  let dist := frame.distance
  let target := frame.pos
  let oldRotInverse := star frame.view.rotation
  let oldEye := oldRotInverse.rotate (frame.eye - target)
  let f := minDelta.transform frame
  let r1 := match c.eye f with
    | some plane =>
      let center := plane.projectPoint target
      let height := dist - (center - target).norm
      let radius := Real.sqrt (height * (dist * (1 + 1) - height))
      let newEye := (plane.projectPoint f.eye - center).normalize.scale radius
      let newEye := center + newEye
      let newEye := oldRotInverse.rotate (newEye - target)
      let rot := rotationBetween oldEye newEye
      (Delta.orbit rot pos, true)
    | none => (minDelta, false)
  let f2 := r1.1.transform frame
  match c.up f2 with
  | some _ =>
    -- Gliding for the up condition is not implemented (`TODO`).
    (Delta.frame, true)
  | none => r1

/-- The loop body of the `Delta::Slide` arm of `Clamp::compute`. -/
def slideStep (c : Clamp) (frame : Frame) (minDelta : Delta) : Delta × Bool :=
  let oldTarget := frame.pos
  let oldRotInverse := star frame.view.rotation
  let oldEye := frame.eye
  let f := minDelta.transform frame
  let r1 := match c.target f with
    | some plane =>
      let newTarget := plane.projectPoint f.pos
      let vec := oldRotInverse.rotate (newTarget - oldTarget)
      (Delta.slide vec, true)
    | none => (minDelta, false)
  let f2 := r1.1.transform frame
  match c.eye f2 with
  | some plane =>
    let newEye := plane.projectPoint f2.eye
    let vec := oldRotInverse.rotate (newEye - oldEye)
    (Delta.slide vec, true)
  | none => r1

/-- The loop body of the `Delta::Scale` arm of `Clamp::compute`; the state
carries the current `min_delta` together with the mutable `rat`. -/
def scaleStep (c : Clamp) (frame : Frame) (scope : Scope) (pos : V3)
    (s : Delta × ℝ) : (Delta × ℝ) × Bool :=
  let oldZat := frame.distance
  let f := s.1.transform frame
  let r1 := match c.eye f with
    | some _ =>
      -- Gliding for the eye condition is not implemented (`TODO`).
      (Delta.frame, true)
    | none => (s.1, false)
  if scope.scaleMode then
    let znear := (scope.clipPlanes 0).1
    let minZat := -znear * (1 + defaultEpsilonSqrt)
    let newZat := oldZat * s.2
    if newZat < minZat then
      let rat := minZat / oldZat
      ((Delta.scale rat pos, rat), true)
    else ((r1.1, s.2), r1.2)
  else ((r1.1, s.2), r1.2)

/-- `Clamp::compute`: computes the clamped delta wrt the boundary
conditions of frame and scope, returning `none` if the delta already
satisfies all boundary conditions.  Each arm mirrors the corresponding
match arm of the Rust default method body, with the per-iteration mutation
of `min_delta` (and `rat` for `Scale`) expressed through `clampLoop` over
the per-variant step function. -/
def compute (c : Clamp) (frame : Frame) (scope : Scope) (delta : Delta) :
    Option (Delta × ℕ) :=
  match delta with
  | .frame => none
  | .first _ _ yawAxis_ =>
    let r := clampLoop (c.firstStep frame yawAxis_) c.loops 0 delta
    if r.1 ≠ delta then some (r.1, r.2) else none
  | .track _ =>
    let r := clampLoop (c.trackStep frame) c.loops 0 delta
    if r.1 ≠ delta then some (r.1, r.2) else none
  | .orbit _ pos =>
    if pos ≠ (0 : V3) then some (Delta.frame, 0)
    else
      let r := clampLoop (c.orbitStep frame pos) c.loops 0 delta
      if r.1 ≠ delta then some (r.1, r.2) else none
  | .slide _ =>
    let r := clampLoop (c.slideStep frame) c.loops 0 delta
    if r.1 ≠ delta then some (r.1, r.2) else none
  | .scale rat pos =>
    let r := clampLoop (c.scaleStep frame scope pos) c.loops 0 (delta, rat)
    if r.1.1 ≠ delta then some (r.1.1, r.2) else none

end Clamp

/-- Orthogonal boundary conditions implementing `Clamp` (`src/bound.rs`,
`struct Bound`). -/
structure Bound where
  transform : Iso
  minTarget : V3
  maxTarget : V3
  minEye : V3
  maxEye : V3
  minUp : V3
  maxUp : V3
  minDistance : ℝ
  maxDistance : ℝ
  hysteresis : ℝ

namespace Bound

/-- The per-axis min/max plane search shared by the target and eye box
checks of `Bound`: the first axis-aligned plane (in x, y, z order, min
before max) exceeded by more than the hysteresis. -/
def boxProbe (h : ℝ) (minP maxP p : V3) : Option Plane :=
  let mx := Plane.new xAxis3 minP.x
  if mx.distanceFrom p > h then some mx else
  let nx := Plane.new xAxis3 maxP.x
  if nx.distanceFrom p < -h then some nx else
  let my := Plane.new yAxis3 minP.y
  if my.distanceFrom p > h then some my else
  let ny := Plane.new yAxis3 maxP.y
  if ny.distanceFrom p < -h then some ny else
  let mz := Plane.new zAxis3 minP.z
  if mz.distanceFrom p > h then some mz else
  let nz := Plane.new zAxis3 maxP.z
  if nz.distanceFrom p < -h then some nz else
  none

/-- `Bound::target`: any boundary plane exceeded by the target position,
checked in the boundary's local frame. -/
def target (b : Bound) (f : Frame) : Option Plane :=
  boxProbe b.hysteresis b.minTarget b.maxTarget (b.transform.inverse.apply f.pos)

/-- `Bound::eye`: any boundary plane exceeded by the eye position: first
the min/max distance checks along the roll axis, then the eye box in the
boundary's local frame. -/
def eye (b : Bound) (f : Frame) : Option Plane :=
  let d := f.distance
  if b.minDistance - d > b.hysteresis then some (Plane.new f.rollAxis b.minDistance)
  else if b.maxDistance - d < -b.hysteresis then some (Plane.new f.rollAxis b.maxDistance)
  else boxProbe b.hysteresis b.minEye b.maxEye (b.transform.inverse.apply f.eye)

/-- `Bound::up`: any boundary plane exceeded by the up position, after
yawing the roll axis into the xz-plane. -/
def up (b : Bound) (f : Frame) : Option Plane :=
  let rollAxis_ := f.rollAxis
  let yaw := fromAxisAngle f.localYawAxis (atan2 rollAxis_.x rollAxis_.z)
  let u := yaw.rotate f.yawAxis
  let a1 := (star yaw).rotate xAxis3
  let m1 := Plane.new a1 b.minUp.x
  if m1.distanceFrom u > b.hysteresis then some m1 else
  let n1 := Plane.new a1 b.maxUp.x
  if n1.distanceFrom u < -b.hysteresis then some n1 else
  let a2 := (star yaw).rotate yAxis3
  let m2 := Plane.new a2 b.minUp.y
  if m2.distanceFrom u > b.hysteresis then some m2 else
  let n2 := Plane.new a2 b.maxUp.y
  if n2.distanceFrom u < -b.hysteresis then some n2 else
  let a3 := (star yaw).rotate zAxis3
  let m3 := Plane.new a3 b.minUp.z
  if m3.distanceFrom u > b.hysteresis then some m3 else
  let n3 := Plane.new a3 b.maxUp.z
  if n3.distanceFrom u < -b.hysteresis then some n3 else
  none

/-- The `Clamp` implementation of `Bound`, overriding the loop budget with
the lower `10` for flat boundary conditions. -/
def toClamp (b : Bound) : Clamp :=
  { loops := 10, target := b.target, eye := b.eye, up := b.up }

end Bound

/-- Position in screen space (nalgebra `Point2<N>`). -/
structure P2 where
  x : ℝ
  y : ℝ

/-- Rust `clamp`: restrict a scalar into `[lo, hi]`. -/
def clampScalar (v lo hi : ℝ) : ℝ :=
  if v < lo then lo else if v > hi then hi else v

/-- `Image::clamp_pos_wrt_max`: clamps a screen position between the
origin and the maximum position. -/
def Image.clampPosWrtMax (pos mx : P2) : P2 :=
  ⟨clampScalar pos.x 0 mx.x, clampScalar pos.y 0 mx.y⟩

/-- `Image::transform_pos_and_max_wrt_max`: transforms a position and its
maximum from screen to camera space, centering the origin and flipping the
y-axis. -/
def Image.transformPosAndMaxWrtMax (pos mx : P2) : P2 × P2 :=
  let m : P2 := ⟨mx.x * (1 / 2), mx.y * (1 / 2)⟩
  (⟨pos.x - m.x, m.y - pos.y⟩, m)

/-- nalgebra `Unit::try_new_and_get(v, 0)`: the normalized vector and its
norm when the norm exceeds zero. -/
def tryNewAndGet (v : V3) : Option (V3 × ℝ) :=
  if v.norm > 0 then some (v.normalize, v.norm) else none

/-- The (ray, length) sample `Orbit::compute` caches for a clamped,
recentered screen position: the normalized position on the xy-plane, or
the z-axis with zero length for the origin position. -/
def orbitSample (pos mx : P2) : V3 × ℝ :=
  let p1 := Image.clampPosWrtMax pos mx
  let p2 := (Image.transformPosAndMaxWrtMax p1 mx).1
  let pv : V3 := ⟨p2.x, p2.y, 0⟩
  match tryNewAndGet pv with
  | some rl => rl
  | none => (zAxis3, 0)

/-- `Orbit::compute` (`src/orbit.rs`, non-`cc` implementation): the cached
previous sample is the explicit state, threaded in and out; the result is
the new state together with the optional rotation.  The cache is replaced
with the new sample before the degeneracy checks, exactly as
`self.vec.replace((ray, len))?` does. -/
def orbitCompute (state : Option (V3 × ℝ)) (pos mx : P2) :
    Option (V3 × ℝ) × Option Quat :=
  let p1 := Image.clampPosWrtMax pos mx
  let pm := Image.transformPosAndMaxWrtMax p1 mx
  let rl := orbitSample pos mx
  let newState := some rl
  match state with
  | none => (newState, none)
  | some (posOld, off) =>
    let vec := rl.2 • rl.1 - off • posOld
    match tryNewAndGet vec with
    | none => (newState, none)
    | some (ray, len) =>
      let mxr := max pm.2.x pm.2.y
      let sin := Real.sin (off / mxr * (Real.pi / 2))
      let cos := Real.cos (off / mxr * (Real.pi / 2))
      let expv : V3 := ⟨sin * posOld.x, sin * posOld.y, cos⟩
      let tanv : V3 := ⟨cos * posOld.x, cos * posOld.y, -sin⟩
      let zxp : V3 := ⟨-posOld.y, posOld.x, 0⟩
      -- `img * arg.tr_mul(&ray)` with `arg = [ẑ posOld zxp]` and
      -- `img = [expv tanv zxp]` as column matrices.
      let w := (zAxis3.dot ray) • expv + (posOld.dot ray) • tanv + (zxp.dot ray) • zxp
      let vec := w.cross expv
      match tryNewAndGet vec with
      | none => (newState, none)
      | some al => (newState, some (fromAxisAngle al.1 (len / mxr)))

/-- `Orbit::discard`: resets the cache to `None`. -/
def orbitDiscard : Option (V3 × ℝ) := none

/-! Algebraic facts about the embedded quaternion rotations. -/

theorem smul_toQuat (r : ℝ) (v : V3) : (r • v).toQuat = r • v.toQuat := by
  ext <;> simp [V3.toQuat]

theorem neg_v3 (v : V3) : (0 : V3) - v = -v := by
  ext <;> simp

theorem rotate_neg (q : Quat) (v : V3) : q.rotate (-v) = -(q.rotate v) := by
  have h := rotate_sub q 0 v
  rw [rotate_zero, neg_v3] at h
  rw [h]
  ext <;> simp

theorem mul_star_of_unit {q : Quat} (h : q.unitNorm) : q * star q = 1 := by
  rw [Quaternion.self_mul_star, h, Quaternion.coe_one]

theorem star_mul_of_unit {q : Quat} (h : q.unitNorm) : star q * q = 1 := by
  rw [Quaternion.star_mul_self, h, Quaternion.coe_one]

theorem unitNorm_mul {p q : Quat} (hp : p.unitNorm) (hq : q.unitNorm) :
    (p * q).unitNorm := by
  have : Quaternion.normSq (p * q) = Quaternion.normSq p * Quaternion.normSq q :=
    map_mul _ _ _
  rw [Quat.unitNorm, this, hp, hq, mul_one]

theorem unitNorm_star {q : Quat} (h : q.unitNorm) : (star q).unitNorm := by
  rw [Quat.unitNorm, Quaternion.normSq_star]
  exact h

theorem unitNorm_one : (1 : Quat).unitNorm := by
  rw [Quat.unitNorm]
  exact map_one _

theorem fromAxisAngle_decomp (a : V3) (θ : ℝ) :
    fromAxisAngle a θ =
      ((Real.cos (θ / 2) : ℝ) : Quat) + (Real.sin (θ / 2) • a).toQuat := by
  ext <;> simp [fromAxisAngle, V3.toQuat]

theorem fromAxisAngle_neg (a : V3) (θ : ℝ) :
    fromAxisAngle a (-θ) = star (fromAxisAngle a θ) := by
  ext <;> simp [fromAxisAngle, neg_div]

theorem unitNorm_fromAxisAngle {a : V3} (h : a.normSq = 1) (θ : ℝ) :
    (fromAxisAngle a θ).unitNorm := by
  have h' : a.x * a.x + a.y * a.y + a.z * a.z = 1 := h
  rw [Quat.unitNorm, Quaternion.normSq_def']
  simp only [fromAxisAngle]
  linear_combination (Real.sin (θ / 2)) ^ 2 * h' + Real.sin_sq_add_cos_sq (θ / 2)

theorem fromAxisAngle_rotate {q : Quat} (hq : q.unitNorm) (a : V3) (θ : ℝ) :
    fromAxisAngle (q.rotate a) θ = q * fromAxisAngle a θ * star q := by
  rw [fromAxisAngle_decomp a θ, fromAxisAngle_decomp (q.rotate a) θ]
  rw [mul_add, add_mul]
  congr 1
  · rw [← Quaternion.coe_commutes, mul_assoc, mul_star_of_unit hq, mul_one]
  · rw [smul_toQuat, smul_toQuat, rotate_toQuat, mul_smul_comm, smul_mul_assoc]

/-! Concrete frames, boundaries and probes used to instantiate the claims. -/

/-- A frame with the target at the origin, the identity eye rotation and
distance one, so the eye sits at `(0, 0, 1)`. -/
def fr1 : Frame := ⟨0, 1, 1⟩

/-- A frame with target `(1, 2, 3)`, identity rotation and distance five. -/
def fw : Frame := ⟨⟨1, 2, 3⟩, 1, 5⟩

/-- A frame with the target at the origin, the identity eye rotation and
distance five, so the eye sits at `(0, 0, 5)`. -/
def f5 : Frame := ⟨0, 1, 5⟩

/-- A box half-width standing in for the unbounded box limits of
`Bound::default`. -/
def bigB : ℝ := 1000000

/-- A boundary with minimum distance one and maximum distance ten, all box
limits effectively unbounded, identity transform and zero hysteresis. -/
def bound3 : Bound :=
  ⟨Iso.id, ⟨-bigB, -bigB, -bigB⟩, ⟨bigB, bigB, bigB⟩, ⟨-bigB, -bigB, -bigB⟩,
    ⟨bigB, bigB, bigB⟩, ⟨-bigB, -bigB, -bigB⟩, ⟨bigB, bigB, bigB⟩, 1, 10, 0⟩

/-- A clamp implementation with no boundary conditions at all: every probe
reports nothing exceeded. -/
def trivialClamp : Clamp :=
  { target := fun _ => none, eye := fun _ => none, up := fun _ => none }

/-- The boundary plane `z = 3/2`. -/
def planeZ : Plane := Plane.new zAxis3 (3 / 2)

/-- A clamp implementation whose target probe reports the plane `z = 3/2`
exceeded whenever the target's z-coordinate lies beyond it. -/
def clampFirst : Clamp :=
  { target := fun f => if f.pos.z > 3 / 2 then some planeZ else none,
    eye := fun _ => none, up := fun _ => none }

/-- C8: for every frame whose eye rotation is a unit quaternion,
`Frame::inverse_view()` coincides with `Frame::view().inverse()` exactly
over the idealized reals. -/
theorem inverseView_eq_view_inverse (f : Frame) (h : f.rot.unitNorm) :
    f.inverseView = f.view.inverse := by
  unfold Frame.inverseView Frame.view Iso.inverse Frame.eye
  rw [rotate_add, rotate_smul, star_rotate_rotate h]

/-- C8 witness: the two view inverses coincide at a concrete frame with
identity rotation. -/
theorem inverseView_eq_view_inverse_witness :
    fw.rot.unitNorm ∧ fw.inverseView = fw.view.inverse :=
  ⟨unitNorm_one, inverseView_eq_view_inverse fw unitNorm_one⟩

/-- C9: `Plane::new(y_axis, 5)` stores bias `-5`, reports distance `5` and
projects the origin to `(0, 5, 0)`; and for every plane and point the
signed distance is `-bias - normal·point`. -/
theorem plane_sign_convention :
    (Plane.new yAxis3 5).bias = -5 ∧ (Plane.new yAxis3 5).distance = 5 ∧
    (Plane.new yAxis3 5).projectPoint 0 = ⟨0, 5, 0⟩ ∧
    ∀ (pl : Plane) (pt : V3), pl.distanceFrom pt = -pl.bias - pl.normal.dot pt := by
  refine ⟨rfl, by norm_num [Plane.new, Plane.distance], ?_, fun pl pt => rfl⟩
  ext <;> simp [Plane.new, Plane.projectPoint, Plane.projectVector, V3.dot, yAxis3]

/-- C6: `Frame::set_target` does keep the eye rotation and recompute the
distance as the norm of the new target minus the old eye position, but it
does not keep the eye position: at a concrete frame looking at the origin
from `(0, 0, 1)`, retargeting to `(1, 0, 0)` moves the eye. -/
theorem setTarget_moves_eye :
    (∀ (f : Frame) (t : V3),
      (f.setTarget t).rot = f.rot ∧ (f.setTarget t).zat = (t - f.eye).norm) ∧
    (fr1.setTarget ⟨1, 0, 0⟩).eye ≠ fr1.eye := by
  constructor
  · exact fun f t => ⟨rfl, rfl⟩
  · intro h
    have hx := congrArg V3.x h
    simp [fr1, Frame.setTarget, Frame.eye, rotate_one, zAxis3] at hx

/-! Round trips of delta transforms and their inverses (claim C2). -/

attribute [ext] Plane Iso Frame

theorem v3_add_sub_cancel (a b : V3) : (a + b) - a = b := by
  ext <;> simp

theorem xAxis3_normSq : xAxis3.normSq = 1 := by norm_num [xAxis3, V3.normSq]

/-- Orbiting a frame around its own eye and then orbiting the result
around its own eye by a left-inverse rotation restores the frame. -/
theorem orbitAround_eye_inverse (pos : V3) (R : Quat) (zat : ℝ) (q1 q2 : Quat)
    (h : q2 * q1 = 1) :
    ((Frame.mk pos R zat).orbitAround q1 (Frame.mk pos R zat).eye).orbitAround q2
        ((Frame.mk pos R zat).orbitAround q1 (Frame.mk pos R zat).eye).eye =
      Frame.mk pos R zat := by
  simp only [Frame.orbitAround, Frame.slide, Frame.orbit, Frame.eye]
  rw [v3_add_sub_cancel, v3_add_sub_cancel]
  have hrot : q2 * (q1 * R) = R := by rw [← mul_assoc, h, one_mul]
  have hE : zat • (q1 * R).rotate zAxis3 = q1.rotate (zat • R.rotate zAxis3) := by
    rw [rotate_smul, rotate_rotate]
  have hQ2 : q2.rotate (q1.rotate (zat • R.rotate zAxis3)) = zat • R.rotate zAxis3 := by
    rw [rotate_rotate, h, rotate_one]
  rw [hrot, hE, hQ2]
  simp only [Frame.mk.injEq]
  refine ⟨?_, trivial, trivial⟩
  ext <;> simp <;> ring

/-- Round trip of a `First` delta: pitching and yawing and then pitching
and yawing back by the negated angles restores the frame, given a unit eye
rotation and a unit yaw axis. -/
theorem roundtrip_first (pos : V3) (R : Quat) (zat p y : ℝ) {A : V3}
    (hR : R.unitNorm) (hA : A.normSq = 1) :
    (Delta.first p y A).inverse.transform
        ((Delta.first p y A).transform (Frame.mk pos R zat)) =
      Frame.mk pos R zat := by
  simp only [Delta.inverse, Delta.transform, Frame.lookAround, Frame.pitchAxis,
    Frame.localPitchAxis]
  have hPxu := unitNorm_fromAxisAngle xAxis3_normSq p
  have hYu := unitNorm_fromAxisAngle hA y
  have hP : fromAxisAngle (R.rotate xAxis3) p =
      R * fromAxisAngle xAxis3 p * star R := fromAxisAngle_rotate hR _ _
  have hPu : (fromAxisAngle (R.rotate xAxis3) p).unitNorm := by
    rw [hP]
    exact unitNorm_mul (unitNorm_mul hR hPxu) (unitNorm_star hR)
  have hQu : (fromAxisAngle A y * fromAxisAngle (R.rotate xAxis3) p).unitNorm :=
    unitNorm_mul hYu hPu
  set Q := fromAxisAngle A y * fromAxisAngle (R.rotate xAxis3) p with hQdef
  -- The rotation of the second `lookAround` is taken around the rotated
  -- pitch axis of the intermediate frame, whose rotation is `Q * R`.
  have hrot1 : ((Frame.mk pos R zat).orbitAround Q (Frame.mk pos R zat).eye).rot = Q * R :=
    rfl
  rw [hrot1]
  have hR1u : (Q * R).unitNorm := unitNorm_mul hQu hR
  have hP2 : fromAxisAngle ((Q * R).rotate xAxis3) (-p) =
      (Q * R) * star (fromAxisAngle xAxis3 p) * star (Q * R) := by
    rw [fromAxisAngle_rotate hR1u, fromAxisAngle_neg]
  have hY2 : fromAxisAngle A (-y) = star (fromAxisAngle A y) := fromAxisAngle_neg A y
  have hkey : fromAxisAngle A (-y) * fromAxisAngle ((Q * R).rotate xAxis3) (-p) * Q = 1 := by
    rw [hY2, hP2, hQdef, hP]
    have cY : ∀ x : Quat, star (fromAxisAngle A y) * (fromAxisAngle A y * x) = x :=
      fun x => by rw [← mul_assoc, star_mul_of_unit hYu, one_mul]
    have cY' : ∀ x : Quat, fromAxisAngle A y * (star (fromAxisAngle A y) * x) = x :=
      fun x => by rw [← mul_assoc, mul_star_of_unit hYu, one_mul]
    have cR : ∀ x : Quat, star R * (R * x) = x :=
      fun x => by rw [← mul_assoc, star_mul_of_unit hR, one_mul]
    have cR' : ∀ x : Quat, R * (star R * x) = x :=
      fun x => by rw [← mul_assoc, mul_star_of_unit hR, one_mul]
    have cPx : ∀ x : Quat,
        fromAxisAngle xAxis3 p * (star (fromAxisAngle xAxis3 p) * x) = x :=
      fun x => by rw [← mul_assoc, mul_star_of_unit hPxu, one_mul]
    have cPx' : ∀ x : Quat,
        star (fromAxisAngle xAxis3 p) * (fromAxisAngle xAxis3 p * x) = x :=
      fun x => by rw [← mul_assoc, star_mul_of_unit hPxu, one_mul]
    have ePx : fromAxisAngle xAxis3 p * star (fromAxisAngle xAxis3 p) = 1 :=
      mul_star_of_unit hPxu
    have ePx' : star (fromAxisAngle xAxis3 p) * fromAxisAngle xAxis3 p = 1 :=
      star_mul_of_unit hPxu
    have eR : R * star R = 1 := mul_star_of_unit hR
    have eR' : star R * R = 1 := star_mul_of_unit hR
    have eY : star (fromAxisAngle A y) * fromAxisAngle A y = 1 := star_mul_of_unit hYu
    have eY' : fromAxisAngle A y * star (fromAxisAngle A y) = 1 := mul_star_of_unit hYu
    simp only [star_mul, star_star, mul_assoc, cY, cY', cR, cR', cPx, cPx', ePx, ePx',
      eR, eR', eY, eY', mul_one, one_mul]
  exact orbitAround_eye_inverse pos R zat Q _ hkey

/-- Round trip of an `Orbit` delta with a unit rotation quaternion. -/
theorem roundtrip_orbit (pos : V3) (R : Quat) (zat : ℝ) (q : Quat) (pv : V3)
    (hq : q.unitNorm) :
    (Delta.orbit q pv).inverse.transform
        ((Delta.orbit q pv).transform (Frame.mk pos R zat)) =
      Frame.mk pos R zat := by
  simp only [Delta.inverse, Delta.transform, Frame.localOrbitAround, Frame.localSlide,
    Frame.localOrbit]
  have hrot : R * q * star q = R := by rw [mul_assoc, mul_star_of_unit hq, mul_one]
  have hback : (R * q).rotate (pv - (star q).rotate pv) =
      R.rotate (q.rotate pv - pv) := by
    rw [← rotate_rotate, rotate_sub, rotate_star_rotate hq]
  rw [hrot, hback]
  have hsum : R.rotate (pv - q.rotate pv) + R.rotate (q.rotate pv - pv) = 0 := by
    rw [← rotate_add]
    have : (pv - q.rotate pv) + (q.rotate pv - pv) = 0 := by ext <;> simp
    rw [this, rotate_zero]
  have hx := congrArg V3.x hsum
  have hy := congrArg V3.y hsum
  have hz := congrArg V3.z hsum
  simp only [V3.add_x, V3.add_y, V3.add_z, V3.zero_x, V3.zero_y, V3.zero_z] at hx hy hz
  simp only [Frame.mk.injEq]
  refine ⟨?_, trivial, trivial⟩
  ext <;> simp <;> linarith

/-- C2 counterexample: a `Scale` delta with ratio one half does not round
trip through its inverse; the eye-target distance ends at `3/4` instead
of `1`. -/
theorem scale_roundtrip_cex :
    (Delta.scale (1 / 2) 0).inverse.transform
        ((Delta.scale (1 / 2) 0).transform fr1) ≠ fr1 := by
  intro h
  have hz := congrArg Frame.zat h
  simp [fr1, Delta.inverse, Delta.transform, Frame.localScaleAround, Frame.localSlide,
    Frame.scaleBy] at hz
  norm_num at hz

/-- C2 amended: for every frame with a unit eye rotation and every
non-degenerate delta, applying the delta and then its inverse restores the
frame exactly for the `Frame`, `First`, `Orbit`, `Track` and `Slide`
variants, while for `Scale` it restores target and orientation but
multiplies the distance by `rat * (2 - rat)`, so the frame is restored
only at ratio one. -/
theorem inverse_transform_roundtrip (f : Frame) (d : Delta)
    (hf : f.rot.unitNorm) (hd : d.wf) :
    d.inverse.transform (d.transform f) =
      match d with
      | .scale rat _ => Frame.mk f.pos f.rot (f.zat * rat * (2 - rat))
      | _ => f := by
  obtain ⟨pos, R, zat⟩ := f
  cases d with
  | frame => rfl
  | first p y A => exact roundtrip_first pos R zat p y hf hd
  | orbit q pv => exact roundtrip_orbit pos R zat q pv hd
  | track v =>
    simp only [Delta.inverse, Delta.transform, Frame.localSlide]
    rw [rotate_neg]
    simp only [Frame.mk.injEq]
    refine ⟨?_, trivial, trivial⟩
    ext <;> simp
  | slide v =>
    simp only [Delta.inverse, Delta.transform, Frame.localSlide]
    rw [rotate_neg]
    simp only [Frame.mk.injEq]
    refine ⟨?_, trivial, trivial⟩
    ext <;> simp
  | scale r pv =>
    simp only [Delta.inverse, Delta.transform, Frame.localScaleAround, Frame.localSlide,
      Frame.scaleBy]
    have hsum : R.rotate (pv - r • pv) + R.rotate (pv - (1 + 1 - r) • pv) = 0 := by
      rw [← rotate_add]
      have : (pv - r • pv) + (pv - (1 + 1 - r) • pv) = 0 := by ext <;> simp <;> ring
      rw [this, rotate_zero]
    have hx := congrArg V3.x hsum
    have hy := congrArg V3.y hsum
    have hz := congrArg V3.z hsum
    simp only [V3.add_x, V3.add_y, V3.add_z, V3.zero_x, V3.zero_y, V3.zero_z] at hx hy hz
    simp only [Frame.mk.injEq]
    refine ⟨?_, trivial, by ring⟩
    ext <;> simp <;> linarith

/-- C2 witness: the round trip restores a concrete frame under a concrete
slide delta. -/
theorem inverse_transform_roundtrip_witness :
    fw.rot.unitNorm ∧ (Delta.slide ⟨1, 2, 3⟩).wf ∧
      (Delta.slide ⟨1, 2, 3⟩).inverse.transform
          ((Delta.slide ⟨1, 2, 3⟩).transform fw) = fw :=
  ⟨unitNorm_one, by trivial,
    inverse_transform_roundtrip fw (Delta.slide ⟨1, 2, 3⟩) unitNorm_one (by trivial)⟩

/-! The orbit gesture cache (claims C7 and C10). -/

theorem tryNewAndGet_zero : tryNewAndGet (0 : V3) = none := by
  simp [tryNewAndGet, V3.norm, V3.normSq]

/-- Every call of `Orbit::compute` leaves the cache holding the sample of
the current position, whatever branch produced the result. -/
theorem orbitCompute_fst (state : Option (V3 × ℝ)) (pos mx : P2) :
    (orbitCompute state pos mx).1 = some (orbitSample pos mx) := by
  cases state with
  | none => rfl
  | some s =>
    obtain ⟨r, l⟩ := s
    simp only [orbitCompute]
    split
    · rfl
    · split
      · rfl
      · rfl

/-- C7: the first `Orbit::compute` call of a gesture returns no rotation,
and a second call at the same position also returns no rotation, since the
displacement from the cached sample is zero. -/
theorem orbit_gesture_none (pos mx : P2) :
    (orbitCompute none pos mx).2 = none ∧
      (orbitCompute (orbitCompute none pos mx).1 pos mx).2 = none := by
  refine ⟨rfl, ?_⟩
  rw [orbitCompute_fst]
  rcases hS : orbitSample pos mx with ⟨r, l⟩
  have hv : l • r - l • r = (0 : V3) := by ext <;> simp
  simp only [orbitCompute, hS, hv, tryNewAndGet_zero]

/-- C10: after every `Orbit::compute` call the cache holds the normalized
ray and length of the current clamped, recentered position, because the
cache is replaced before the degeneracy checks; only `Orbit::discard`
resets it to `None`. -/
theorem orbit_cache_always_updated :
    (∀ (state : Option (V3 × ℝ)) (pos mx : P2),
        (orbitCompute state pos mx).1 = some (orbitSample pos mx)) ∧
      orbitDiscard = none :=
  ⟨orbitCompute_fst, rfl⟩

/-! Loop budgets of the clamp machinery (claim C5). -/

theorem clampLoop_le {σ : Type} (step : σ → σ × Bool) :
    ∀ (remaining l : ℕ) (s : σ), (clampLoop step remaining l s).2 ≤ remaining + l := by
  intro remaining
  induction remaining with
  | zero =>
    intro l s
    rw [clampLoop]
    cases hb : (step s).2 <;> simp [hb]
  | succ r ih =>
    intro l s
    rw [clampLoop]
    cases hb : (step s).2 <;> simp [hb]
    exact le_trans (ih (l + 1) (step s).1) (by omega)

/-! Concrete evaluations of the clamp computation (claims C1, C3, C4, C5). -/

theorem clampLoop_stop {σ : Type} (step : σ → σ × Bool) (r l : ℕ) {s s' : σ}
    (h : step s = (s', false)) : clampLoop step r l s = (s', l) := by
  rw [clampLoop.eq_def]
  simp [h]

theorem clampLoop_go {σ : Type} (step : σ → σ × Bool) (r l : ℕ) {s s' : σ}
    (h : step s = (s', true)) :
    clampLoop step (r + 1) l s = clampLoop step r (l + 1) s' := by
  rw [clampLoop, h]
  simp

theorem clampLoop_last {σ : Type} (step : σ → σ × Bool) (l : ℕ) {s s' : σ}
    (h : step s = (s', true)) : clampLoop step 0 l s = (s', l) := by
  rw [clampLoop, h]
  simp

theorem isoId_inv_apply (p : V3) : Iso.id.inverse.apply p = p := by
  simp only [Iso.id, Iso.inverse, Iso.apply, star_one, rotate_one, rotate_zero]
  ext <;> simp

theorem f5_eye : f5.eye = ⟨0, 0, 5⟩ := by
  have : Quat.rotate f5.rot zAxis3 = zAxis3 := rotate_one zAxis3
  simp only [Frame.eye, this]
  ext <;> simp [f5, zAxis3]

theorem frame_transform (f : Frame) : Delta.frame.transform f = f := rfl

theorem scale4_transform : (Delta.scale 4 0).transform f5 = Frame.mk 0 1 20 := by
  simp only [Delta.transform, Frame.localScaleAround, Frame.localSlide, Frame.scaleBy]
  have h0 : (0 : V3) - (4 : ℝ) • 0 = 0 := by ext <;> simp
  rw [h0]
  have h1 : Quat.rotate f5.rot 0 = 0 := rotate_zero _
  rw [h1]
  simp only [Frame.mk.injEq, f5]
  refine ⟨by ext <;> simp, trivial, by norm_num⟩

theorem bound3_eye_20 :
    bound3.eye (Frame.mk 0 1 20) =
      some (Plane.new (Frame.rollAxis (Frame.mk 0 1 20)) 10) := by
  simp only [Bound.eye, bound3, Frame.distance]
  norm_num

theorem bound3_eye_f5 : bound3.eye f5 = none := by
  have ha : bound3.transform.inverse.apply f5.eye = (⟨0, 0, 5⟩ : V3) := by
    show Iso.id.inverse.apply f5.eye = _
    rw [isoId_inv_apply, f5_eye]
  simp only [Bound.eye, ha, Bound.boxProbe]
  norm_num [bound3, bigB, f5, Frame.distance, Plane.new, Plane.distanceFrom,
    Plane.distance, V3.dot, xAxis3, yAxis3, zAxis3]

/-- Evaluation of the scale clamp at the concrete C3/C5 instance: the
maximum distance is exceeded, the delta degrades to the identity in the
first loop, and revalidation passes in the second. -/
theorem compute_bound3_eq :
    Clamp.compute bound3.toClamp f5 Scope.default (Delta.scale 4 0) =
      some (Delta.frame, 1) := by
  have ht : bound3.toClamp.eye = bound3.eye := rfl
  have hl : bound3.toClamp.loops = 10 := rfl
  have h1 : Clamp.scaleStep bound3.toClamp f5 Scope.default 0 (Delta.scale 4 0, 4) =
      ((Delta.frame, 4), true) := by
    simp [Clamp.scaleStep, ht, scale4_transform, bound3_eye_20, Scope.scaleMode,
      Scope.default]
  have h2 : Clamp.scaleStep bound3.toClamp f5 Scope.default 0 (Delta.frame, 4) =
      ((Delta.frame, 4), false) := by
    simp [Clamp.scaleStep, ht, frame_transform, bound3_eye_f5, Scope.scaleMode,
      Scope.default]
  have h10 : (10 : ℕ) = 9 + 1 := rfl
  have hloop : clampLoop (Clamp.scaleStep bound3.toClamp f5 Scope.default 0) 10 0
      (Delta.scale 4 0, 4) = ((Delta.frame, 4), 1) := by
    rw [h10, clampLoop_go _ _ _ h1, clampLoop_stop _ _ _ h2]
  simp only [Clamp.compute, hl, hloop]
  simp

/-- C3 counterexample: at the claimed instance (`min_distance = 1`,
`max_distance = 10`, distance 5, origin-pivot scale ratio 4) the clamp
returns the identity delta, whose application leaves the distance at 5,
not at the bound 10. -/
theorem scale_clamp_cex :
    Clamp.compute bound3.toClamp f5 Scope.default (Delta.scale 4 0) =
        some (Delta.frame, 1) ∧
      (Delta.frame.transform f5).zat ≠ 10 :=
  ⟨compute_bound3_eq, by norm_num [frame_transform, f5]⟩

/-- C3 amended: for that instance the distance violation degrades the
scale delta to a full stop: the clamp returns the identity delta after one
revalidation loop and applying it keeps the distance at 5. -/
theorem scale_clamp_full_stop :
    Clamp.compute bound3.toClamp f5 Scope.default (Delta.scale 4 0) =
        some (Delta.frame, 1) ∧
      (Delta.frame.transform f5).zat = 5 :=
  ⟨compute_bound3_eq, rfl⟩

/-- C5: `Clamp::compute` is total by construction and the loop count it
returns never exceeds the budget `loops()`; the trait default budget is
`100` while `Bound` overrides it with the lower `10`. -/
theorem compute_loops_bounded :
    (∀ (c : Clamp) (fr : Frame) (sc : Scope) (d : Delta) (p : Delta × ℕ),
        Clamp.compute c fr sc d = some p → p.2 ≤ c.loops) ∧
      ∀ (t e u : Frame → Option Plane) (b : Bound),
        ({ target := t, eye := e, up := u } : Clamp).loops = 100 ∧
          b.toClamp.loops = 10 ∧
          b.toClamp.loops < ({ target := t, eye := e, up := u } : Clamp).loops := by
  constructor
  · intro c fr sc d p h
    cases d with
    | frame => exact absurd h (by simp [Clamp.compute])
    | first p1 y1 A =>
      simp only [Clamp.compute] at h
      split at h
      · injection h with h2
        rw [← h2]
        simpa using clampLoop_le _ c.loops 0 _
      · exact absurd h (by simp)
    | track v =>
      simp only [Clamp.compute] at h
      split at h
      · injection h with h2
        rw [← h2]
        simpa using clampLoop_le _ c.loops 0 _
      · exact absurd h (by simp)
    | orbit q pv =>
      simp only [Clamp.compute] at h
      split at h
      · injection h with h2
        rw [← h2]
        simp
      · split at h
        · injection h with h2
          rw [← h2]
          simpa using clampLoop_le _ c.loops 0 _
        · exact absurd h (by simp)
    | slide v =>
      simp only [Clamp.compute] at h
      split at h
      · injection h with h2
        rw [← h2]
        simpa using clampLoop_le _ c.loops 0 _
      · exact absurd h (by simp)
    | scale r pv =>
      simp only [Clamp.compute] at h
      split at h
      · injection h with h2
        rw [← h2]
        simpa using clampLoop_le _ c.loops 0 _
      · exact absurd h (by simp)
  · intro t e u b
    refine ⟨rfl, rfl, ?_⟩
    show (10 : ℕ) < 100
    norm_num

/-- C5 witness: a concrete clamped computation whose loop count respects
the budget of `Bound`. -/
theorem compute_loops_bounded_witness :
    Clamp.compute bound3.toClamp f5 Scope.default (Delta.scale 4 0) =
        some (Delta.frame, 1) ∧
      (Delta.frame, 1).2 ≤ bound3.toClamp.loops :=
  ⟨compute_bound3_eq,
    compute_loops_bounded.1 bound3.toClamp f5 Scope.default (Delta.scale 4 0)
      (Delta.frame, 1) compute_bound3_eq⟩

/-- The scale clamp under a clamp implementation with no boundary
conditions leaves an off-origin-pivot scale delta untouched: the result is
`none`, not the identity delta. -/
theorem compute_trivial_scale :
    Clamp.compute trivialClamp fr1 Scope.default (Delta.scale 2 ⟨1, 0, 0⟩) = none := by
  have h2 : Clamp.scaleStep trivialClamp fr1 Scope.default ⟨1, 0, 0⟩
      (Delta.scale 2 ⟨1, 0, 0⟩, 2) = ((Delta.scale 2 ⟨1, 0, 0⟩, 2), false) := by
    simp [Clamp.scaleStep, trivialClamp, Scope.scaleMode, Scope.default]
  simp only [Clamp.compute]
  rw [clampLoop_stop _ _ _ h2]
  simp

/-- C1 counterexample: a `Scale` delta with the off-origin pivot
`(1, 0, 0)` is not replaced by the identity delta: under probes that never
report a violation, `Clamp::compute` returns `none`. -/
theorem scale_pivot_not_short_circuit :
    ((⟨1, 0, 0⟩ : V3) ≠ 0) ∧
      Clamp.compute trivialClamp fr1 Scope.default (Delta.scale 2 ⟨1, 0, 0⟩) = none := by
  refine ⟨?_, compute_trivial_scale⟩
  intro h
  have hx := congrArg V3.x h
  norm_num at hx

/-- C1 amended: only the `Orbit` branch short-circuits an off-origin pivot
to `Some((Delta::Frame, 0))`, for every clamp, frame, scope and rotation;
the `Scale` branch has no such check and runs the regular loop (returning
`none` at the concrete unclamped instance). -/
theorem orbit_pivot_short_circuit :
    (∀ (c : Clamp) (fr : Frame) (sc : Scope) (rot : Quat) (pos : V3), pos ≠ 0 →
        Clamp.compute c fr sc (Delta.orbit rot pos) = some (Delta.frame, 0)) ∧
      Clamp.compute trivialClamp fr1 Scope.default (Delta.scale 2 ⟨1, 0, 0⟩) = none := by
  refine ⟨?_, compute_trivial_scale⟩
  intro c fr sc rot pos hp
  simp only [Clamp.compute]
  rw [if_pos hp]

/-- C1 witness: the short circuit at a concrete off-origin orbit pivot. -/
theorem orbit_pivot_short_circuit_witness :
    ((⟨1, 0, 0⟩ : V3) ≠ 0) ∧
      Clamp.compute trivialClamp fr1 Scope.default (Delta.orbit 1 ⟨1, 0, 0⟩) =
        some (Delta.frame, 0) := by
  have hne : (⟨1, 0, 0⟩ : V3) ≠ 0 := by
    intro h
    have hx := congrArg V3.x h
    norm_num at hx
  exact ⟨hne,
    orbit_pivot_short_circuit.1 trivialClamp fr1 Scope.default 1 ⟨1, 0, 0⟩ hne⟩

/-! Evaluation of the `First` branch at a boundary violation (claim C4). -/

theorem fr1_eye : fr1.eye = ⟨0, 0, 1⟩ := by
  have h : Quat.rotate fr1.rot zAxis3 = zAxis3 := rotate_one zAxis3
  simp only [Frame.eye, h]
  ext <;> simp [fr1, zAxis3]

/-- The `First` delta with yaw `π` about the y-axis rotates the target of
`fr1` from `(0, 0, 0)` half a turn around the eye `(0, 0, 1)`, landing it
at `(0, 0, 2)`. -/
theorem first_transform_fr1 :
    (Delta.first 0 Real.pi yAxis3).transform fr1 =
      Frame.mk ⟨0, 0, 2⟩ (⟨0, 0, 1, 0⟩ : Quat) 1 := by
  have hp : fromAxisAngle xAxis3 0 = 1 := by
    ext <;> simp [fromAxisAngle, xAxis3]
  have hy : fromAxisAngle yAxis3 Real.pi = (⟨0, 0, 1, 0⟩ : Quat) := by
    ext <;> simp [fromAxisAngle, yAxis3]
  have hrot : Quat.rotate (⟨0, 0, 1, 0⟩ : Quat) ⟨0, 0, 1⟩ = ⟨0, 0, -1⟩ := by
    ext <;> simp [Quat.rotate, V3.toQuat, Quat.vecPart]
  have hpos : fr1.pos = 0 := rfl
  have hrot1 : fr1.rot = 1 := rfl
  have hzat : fr1.zat = 1 := rfl
  simp only [Delta.transform, Frame.lookAround, Frame.pitchAxis, Frame.localPitchAxis,
    Frame.orbitAround, Frame.slide, Frame.orbit, hrot1, rotate_one, hp, hy, mul_one,
    fr1_eye, hpos, hzat]
  have hsub : (⟨0, 0, 1⟩ : V3) - 0 = ⟨0, 0, 1⟩ := by ext <;> simp
  rw [hsub, hrot]
  simp only [Frame.mk.injEq]
  refine ⟨by ext <;> simp only [] <;> norm_num, trivial, trivial⟩

theorem clampFirst_target_hit :
    clampFirst.target (Frame.mk ⟨0, 0, 2⟩ (⟨0, 0, 1, 0⟩ : Quat) 1) = some planeZ := by
  norm_num [clampFirst]

theorem clampFirst_target_fr1 : clampFirst.target fr1 = none := by
  norm_num [clampFirst, fr1]

theorem firstStep_hit :
    Clamp.firstStep clampFirst fr1 yAxis3 (Delta.first 0 Real.pi yAxis3) =
      (Delta.frame, true) := by
  simp only [Clamp.firstStep, first_transform_fr1, clampFirst_target_hit]

theorem firstStep_pass :
    Clamp.firstStep clampFirst fr1 yAxis3 Delta.frame = (Delta.frame, false) := by
  simp only [Clamp.firstStep, frame_transform, clampFirst_target_fr1]

/-- C4: at a concrete frame and boundary where the tentative `First`
motion exceeds the target plane, `Clamp::compute` substitutes the identity
delta `Delta::Frame` — a full stop — instead of the pitch/yaw gliding
delta that the branch computes and then discards. -/
theorem first_clamp_full_stop :
    Clamp.compute clampFirst fr1 Scope.default (Delta.first 0 Real.pi yAxis3) =
      some (Delta.frame, 1) := by
  have hl : clampFirst.loops = 100 := rfl
  have h100 : (100 : ℕ) = 99 + 1 := rfl
  simp only [Clamp.compute, hl]
  rw [h100, clampLoop_go _ _ _ firstStep_hit, clampLoop_stop _ _ _ firstStep_pass]
  simp

end Trackball
